import Mathlib

/-!
# Verification of the GAIN Signal Board core layer

A shallow embedding of the pure computation inside `src/streamlit_app.py`:
the HTTP-client header assembly (`http_json`), the repository stats mapping
(`fetch_repo_stats`), the extended counters (`fetch_repo_extended`), the
commit-history daily aggregation (`fetch_commit_history`), the liveness
prober (`ping_url`), the CSV loaders (`read_csv_url`, `load_offline_csv`,
the top-level upload expression), the Google-Sheets URL rewriter
(`normalize_sheets_url`), and the TTL cache declared via the
`st.cache_data(ttl=60)` decorators.

Network and UI effects are factored out: each fetcher takes the decoded
upstream response (or the transport/parse outcome) as an explicit argument,
and Python exceptions are modelled with `Except String`.
-/

namespace SignalBoard

/-- Decoded JSON values, as produced by `requests.Response.json()`.
`num` carries an `Int`: every numeric field the app touches is integral. -/
inductive Json where
  | null : Json
  | bool (b : Bool) : Json
  | num (n : Int) : Json
  | str (s : String) : Json
  | arr (xs : List Json) : Json
  | obj (fields : List (String × Json)) : Json

/-- First binding of a key in an object's field list (Python dicts have
unique keys, so first-match lookup is faithful). -/
def jlookup : List (String × Json) → String → Option Json
  | [], _ => none
  | (k, v) :: fs, key => if k = key then some v else jlookup fs key

/-- Python `x.get(k)` : returns the value, `None` when the key is absent,
and raises `AttributeError` when `x` is not a dict. -/
def dictGet : Json → String → Except String Json
  | Json.obj fs, k => Except.ok ((jlookup fs k).getD Json.null)
  | _, _ => Except.error "AttributeError: get"

/-- Python `x.get(k, d)` : the default `d` replaces only an absent key, not
an explicit `null` value; raises `AttributeError` when `x` is not a dict. -/
def dictGetD : Json → String → Json → Except String Json
  | Json.obj fs, k, d => Except.ok ((jlookup fs k).getD d)
  | _, _, _ => Except.error "AttributeError: get"

/-- Python truthiness of a decoded JSON value. -/
def truthy : Json → Bool
  | Json.null => false
  | Json.bool b => b
  | Json.num n => n != 0
  | Json.str s => !s.isEmpty
  | Json.arr xs => !xs.isEmpty
  | Json.obj fs => !fs.isEmpty

/-- Python `a or b` on decoded JSON values. -/
def jor (a b : Json) : Json := if truthy a then a else b

/-- Whether the character list `s` starts with `pat`. -/
def startsWithPat : List Char → List Char → Bool
  | [], _ => true
  | _ :: _, [] => false
  | p :: ps, c :: cs => p == c && startsWithPat ps cs

/-- Whether `pat` occurs inside `s` (character-list core of Python
`pat in s`). -/
def containsPat (s pat : List Char) : Bool :=
  match s with
  | [] => pat.isEmpty
  | _ :: cs => startsWithPat pat s || containsPat cs pat

/-- Python `pat in s` substring test. -/
def strContains (s pat : String) : Bool := containsPat s.data pat.data

/-- Splitting at leftmost non-overlapping occurrences of the non-empty
pattern `pat`; `fuel` only bounds the recursion and is chosen so that it
never runs out. -/
def pySplitGo (pat : List Char) : Nat → List Char → List Char → List (List Char)
  | 0, s, acc => [acc.reverse ++ s]
  | fuel + 1, s, acc =>
    match s with
    | [] => [acc.reverse]
    | c :: cs =>
      if startsWithPat pat s then
        acc.reverse :: pySplitGo pat fuel (s.drop pat.length) []
      else pySplitGo pat fuel cs (c :: acc)

/-- Python `s.split(pat)` for a non-empty literal pattern. -/
def pySplit (s pat : String) : List String :=
  if pat.isEmpty then [s]
  else (pySplitGo pat.data (s.data.length + 1) s.data []).map String.mk

/- ## HTTP client: header assembly of `http_json` -/

/-- `h = {"Accept": "application/vnd.github+json"}` (line 41). -/
def base_headers : List (String × String) := [("Accept", "application/vnd.github+json")]

/-- Python `h[k] = v` on a dict rendered as an assoc list: overwrite the
existing binding, else append. -/
def dictSet (h : List (String × String)) (k v : String) : List (String × String) :=
  if h.any (fun p => p.1 == k) then h.map (fun p => if p.1 == k then (k, v) else p)
  else h ++ [(k, v)]

/-- Python `h.update(hs)` on a dict rendered as an assoc list. -/
def dictUpdate (h : List (String × String)) (hs : List (String × String)) : List (String × String) :=
  hs.foldl (fun acc p => dictSet acc p.1 p.2) h

/-- Truthiness of the `GITHUB_TOKEN` configuration value: `None` and the
empty string are falsy. -/
def token_truthy : Option String → Bool
  | none => false
  | some s => !s.isEmpty

/-- The headers `http_json` sends (lines 40-46): the Accept header, updated
with the caller-supplied headers, plus `Authorization: Bearer <token>` when
`GITHUB_TOKEN` is truthy and `"api.github.com" in url`. -/
def http_json_headers (token : Option String) (headers : Option (List (String × String)))
    (url : String) : List (String × String) :=
  let h := base_headers
  let h := match headers with
    | some hs => dictUpdate h hs
    | none => h
  if token_truthy token && strContains url "api.github.com" then
    dictSet h "Authorization" ("Bearer " ++ (match token with | some t => t | none => ""))
  else h

/-- Whether a header dict carries a binding for key `k`. -/
def hasHeader (h : List (String × String)) (k : String) : Bool := h.any (fun p => p.1 == k)

/-- `ping_url` issues `requests.get(url, timeout=timeout)` (line 118) with
no `headers` argument: the request carries no Authorization header and the
function never reads `GITHUB_TOKEN`. -/
def ping_request_headers (_url : String) : List (String × String) := []

/-- `read_csv_url` issues `pd.read_csv(url)` (line 133) which fetches with
no custom headers: no Authorization header, and the function never reads
`GITHUB_TOKEN`. -/
def read_csv_request_headers (_url : String) : List (String × String) := []

/-- The claim's phrase "the target host": the authority component of a URL,
i.e. what stands between the scheme separator and the first path, query or
fragment delimiter. -/
def spec_url_host (url : String) : String :=
  let rest := match pySplit url "://" with
    | _ :: r :: _ => r
    | _ => url
  String.mk (rest.data.takeWhile (fun c => c != '/' && c != '?' && c != '#'))

/- ## Liveness prober: `ping_url` -/

/-- The outcome of `requests.get` inside `ping_url`: either an HTTP
response (status code plus elapsed time, in milliseconds) or an exception
with its `str(e)` message. -/
inductive PingOutcome where
  | response (status : Nat) (elapsedMs : Nat) : PingOutcome
  | exception (msg : String) : PingOutcome

/-- The dict `ping_url` returns. `errorPresent` records whether the dict
carries an `"error"` key at all (the success branch on lines 119-124 omits
it; the exception branch on line 126 always includes it). -/
structure PingDict where
  status_code : Option Nat
  ok : Bool
  latency_s : Option Nat
  url : String
  errorPresent : Bool
  error : Option String

/-- `requests.Response.ok`: defined through `raise_for_status`, which
raises exactly for status codes in `[400, 600)`. -/
def requests_ok (status : Nat) : Bool :=
  if 400 ≤ status ∧ status < 600 then false else true

/-- `ping_url` (lines 115-126), with the transport outcome explicit. The
function is total: the exception branch captures every transport failure. -/
def ping_url (url : String) (o : PingOutcome) : PingDict :=
  match o with
  | PingOutcome.response s ms =>
    { status_code := some s, ok := requests_ok s, latency_s := some ms,
      url := url, errorPresent := false, error := none }
  | PingOutcome.exception m =>
    { status_code := none, ok := false, latency_s := none,
      url := url, errorPresent := true, error := some m }

/- ## Google Sheets URL rewriter: `normalize_sheets_url` -/

/-- `normalize_sheets_url` (lines 139-151). The Python `root, gid =
link.split("#gid=")` unpacking raises `ValueError` unless the split has
exactly two parts, and `root.split("/d/")[1]` raises `IndexError` when
`"/d/"` does not occur in `root`; both are caught by the `except` and fall
back to returning the link unchanged. -/
def normalize_sheets_url (link : String) : String :=
  if strContains link "/export?format=csv" then link
  else if strContains link "docs.google.com/spreadsheets/d/" then
    let rg : Option (String × String) :=
      if strContains link "#gid=" then
        match pySplit link "#gid=" with
        | [root, gid] => some (root, gid)
        | _ => none
      else some (link, "0")
    match rg with
    | none => link
    | some (root, gid) =>
      match pySplit root "/d/" with
      | _ :: second :: _ =>
        let sid := (pySplit second "/").headD second
        "https://docs.google.com/spreadsheets/d/" ++ sid ++ "/export?format=csv&gid=" ++ gid
      | _ => link
  else link

/- ## Repository stats fetcher: `fetch_repo_stats` -/

/-- The flat stats record built on lines 55-70. Every value the source
stores comes from the decoded JSON (so it is a `Json`, with `Json.null`
standing for Python `None`), except the pass-through latency. `round(x, 3)`
on a float is modelled by carrying the latency as an opaque integer number
of milliseconds. -/
structure RepoStats where
  repo_full_name : Json
  default_branch : Json
  stars : Json
  forks : Json
  watchers : Json
  open_issues : Json
  license : Json
  repo_api_latency_s : Int
  latest_commit_sha : Json
  latest_commit_message : Json
  latest_commit_author : Json
  latest_commit_datetime : Json
  repo_html_url : Json
  repo_size_kb : Json

/-- `fetch_repo_stats` (lines 50-71), with the two decoded responses
(`data` from the repo-metadata endpoint, `last_commit` from the commits
endpoint) passed in. Line 54: `commit = last_commit[0] if
isinstance(last_commit, list) and last_commit else {}`. Note line 67 uses
`.get("author", {})` (default only covers an absent key) where line 66
uses `.get("author") or {}` (also covers an explicit null). -/
def fetch_repo_stats (data last_commit : Json) (latencyMs : Int) : Except String RepoStats := do
  let commit := match last_commit with
    | Json.arr (c :: _) => c
    | _ => Json.obj []
  let full_name ← dictGet data "full_name"
  let default_branch ← dictGet data "default_branch"
  let stars ← dictGet data "stargazers_count"
  let forks ← dictGet data "forks_count"
  let watchers ← dictGet data "subscribers_count"
  let open_issues ← dictGet data "open_issues_count"
  let licObj ← dictGet data "license"
  let license ← dictGet (jor licObj (Json.obj [])) "spdx_id"
  let sha ← dictGet commit "sha"
  let cm1 ← dictGet commit "commit"
  let message ← dictGet (jor cm1 (Json.obj [])) "message"
  let cm2 ← dictGet commit "commit"
  let author ← dictGet (jor cm2 (Json.obj [])) "author"
  let author_name ← dictGet (jor author (Json.obj [])) "name"
  let cm3 ← dictGet commit "commit"
  let author2 ← dictGetD (jor cm3 (Json.obj [])) "author" (Json.obj [])
  let date ← dictGet author2 "date"
  let html_url ← dictGet data "html_url"
  let size ← dictGet data "size"
  return { repo_full_name := full_name, default_branch := default_branch,
           stars := stars, forks := forks, watchers := watchers,
           open_issues := open_issues, license := license,
           repo_api_latency_s := latencyMs, latest_commit_sha := sha,
           latest_commit_message := message, latest_commit_author := author_name,
           latest_commit_datetime := date, repo_html_url := html_url,
           repo_size_kb := size }

/- ## Extended counters fetcher: `fetch_repo_extended` -/

/-- Python `int(v)` on a decoded JSON value: ints pass through, bools map
to 0/1, numeric strings parse (`int` tolerates surrounding whitespace),
everything else raises. -/
def pyInt : Json → Except String Int
  | Json.num n => Except.ok n
  | Json.bool b => Except.ok (if b then 1 else 0)
  | Json.str s =>
    match s.trim.toInt? with
    | some n => Except.ok n
    | none => Except.error "ValueError: int"
  | _ => Except.error "TypeError: int"

/-- `_safe_count` (lines 76-84), with the `http_json` outcome for its URL
passed in: any error — transport, HTTP status, `.get` on a non-dict,
`int()` failure — is swallowed into 0; a list counts by length; a dict
counts by its `total_count` field, defaulting to 0. -/
def safe_count (o : Except String Json) : Int :=
  match o with
  | Except.error _ => 0
  | Except.ok (Json.arr xs) => Int.ofNat xs.length
  | Except.ok js =>
    match dictGetD js "total_count" (Json.num 0) with
    | Except.error _ => 0
    | Except.ok v =>
      match pyInt v with
      | Except.ok n => n
      | Except.error _ => 0

/-- The decoded outcome of each of the five counter endpoints. -/
structure ExtOutcomes where
  contributors : Except String Json
  branches : Except String Json
  releases : Except String Json
  tags : Except String Json
  pulls : Except String Json

/-- The counts dict built on lines 86-92. -/
structure ExtendedCounts where
  contributors : Int
  branches : Int
  releases : Int
  tags : Int
  pulls_open : Int

/-- `fetch_repo_extended` (lines 73-93): five independent `_safe_count`
calls, one per endpoint; the function as a whole is total. -/
def fetch_repo_extended (o : ExtOutcomes) : ExtendedCounts :=
  { contributors := safe_count o.contributors,
    branches := safe_count o.branches,
    releases := safe_count o.releases,
    tags := safe_count o.tags,
    pulls_open := safe_count o.pulls }

/- ## Commit history aggregator: `fetch_commit_history` -/

/-- The timestamp extraction of line 103:
`((c.get("commit") or {}).get("author") or {}).get("date")`. -/
def commit_date (c : Json) : Except String Json :=
  match dictGet c "commit" with
  | Except.error e => Except.error e
  | Except.ok cm =>
    match dictGet (jor cm (Json.obj [])) "author" with
    | Except.error e => Except.error e
    | Except.ok a => dictGet (jor a (Json.obj [])) "date"

/-- The row-building loop of lines 101-106 composed with the per-timestamp
date conversion of lines 110-111 (`pd.to_datetime`, localize/convert to
UTC, convert to the display zone, truncate to the calendar date). That
composite acts element-wise on timestamp strings, so it is abstracted as
`loc : String → String` mapping an ISO timestamp to its local calendar
date; a truthy non-string date value makes `pd.to_datetime` the first
point of failure. Falsy timestamps are skipped (`if not dt: continue`). -/
def extract_dates (loc : String → String) : List Json → Except String (List String)
  | [] => Except.ok []
  | c :: cs =>
    match commit_date c with
    | Except.error e => Except.error e
    | Except.ok dt =>
      if truthy dt then
        match dt with
        | Json.str s =>
          match extract_dates loc cs with
          | Except.error e => Except.error e
          | Except.ok rest => Except.ok (loc s :: rest)
        | _ => Except.error "to_datetime"
      else extract_dates loc cs

/-- Code-point comparison of characters (executable form of `Char` `<`). -/
def charLtB (a b : Char) : Bool := decide (a.toNat < b.toNat)

/-- Lexicographic comparison of character lists (executable form of
`List Char` `<`). -/
def strLtB : List Char → List Char → Bool
  | _, [] => false
  | [], _ :: _ => true
  | a :: as, b :: bs =>
    if charLtB a b then true
    else if charLtB b a then false
    else strLtB as bs

/-- Lexicographic string comparison (executable form of `String` `<`,
the order pandas sorts group keys by for string-rendered dates). -/
def strLt (a b : String) : Bool := strLtB a.data b.data

/-- Sorted insertion that drops an already-present date. -/
def insertSortedDedup (d : String) : List String → List String
  | [] => [d]
  | x :: xs =>
    if d = x then x :: xs
    else if strLt d x then d :: x :: xs
    else x :: insertSortedDedup d xs

/-- The distinct dates of a list, ascending. -/
def sortedDedup (l : List String) : List String := l.foldr insertSortedDedup []

/-- `df.groupby("date").size()` of line 112: one row per distinct date,
ascending (pandas sorts group keys), each carrying that date's row count. -/
def groupDaily (dates : List String) : List (String × Nat) :=
  (sortedDedup dates).map (fun d => (d, dates.count d))

/-- `fetch_commit_history` (lines 95-113), with the decoded commits list
and the date-conversion function passed in. An empty extraction returns
the empty frame before grouping (lines 108-109), which coincides with
grouping nothing. -/
def fetch_commit_history (loc : String → String) (commits : List Json) :
    Except String (List (String × Nat)) :=
  match extract_dates loc commits with
  | Except.error e => Except.error e
  | Except.ok dates => Except.ok (groupDaily dates)

/-- Display time zone UTC: a Zulu ISO-8601 timestamp's local calendar date
is its leading `YYYY-MM-DD` component. -/
def utc_local_date (s : String) : String := s.take 10

/- ## External tabular data loaders -/

/-- A parsed row-set (`pd.DataFrame`): rows of cell strings; the schema is
irrelevant to the claims. -/
abbrev Rows := List (List String)

/-- `read_csv_url` (lines 129-137), with the fetch-and-parse outcome of
`pd.read_csv(url)` passed in. Returns the row-set plus the warnings
surfaced via `st.warning`; a failure yields an empty frame and a warning. -/
def read_csv_url (outcome : Except String Rows) : Rows × List String :=
  match outcome with
  | Except.ok df => (df, [])
  | Except.error e => ([], ["Could not read CSV from URL: " ++ e])

/-- The fixed candidate paths of line 211, in preference order. -/
def offline_candidates : List String := ["latest_metrics.csv", "data/latest_metrics.csv"]

/-- The loop body of `load_offline_csv`: `fs` maps a path to `none` when
`os.path.exists` is false, otherwise to the `pd.read_csv` outcome. A
successful parse returns immediately; a failed parse warns and falls
through to the next candidate; exhaustion returns an empty frame. -/
def load_offline_csv_go (fs : String → Option (Except String Rows)) :
    List String → List String → Rows × List String
  | [], ws => ([], ws)
  | n :: ns, ws =>
    match fs n with
    | none => load_offline_csv_go fs ns ws
    | some (Except.ok df) => (df, ws)
    | some (Except.error e) =>
      load_offline_csv_go fs ns (ws ++ ["Found " ++ n ++ " but could not read it: " ++ e])

/-- `load_offline_csv` (lines 210-218). -/
def load_offline_csv (fs : String → Option (Except String Rows)) : Rows × List String :=
  load_offline_csv_go fs offline_candidates []

/-- The top-level upload expression of line 284:
`pd.read_csv(uploaded) if uploaded is not None else None`. It sits outside
every `try`, so a parse failure propagates out of the script (a fatal error
for the page) instead of degrading. -/
def page_uploaded_df : Option (Except String Rows) → Except String (Option Rows)
  | none => Except.ok none
  | some (Except.ok df) => Except.ok (some df)
  | some (Except.error e) => Except.error e

/- ## TTL cache (declared via `st.cache_data(ttl=60)`) -/

/-- The TTL declared by each of the four `st.cache_data(ttl=60)`
decorators (lines 50, 73, 95, 115, 129). -/
def cache_ttl_seconds : Nat := 60

/-- One memoization entry: key, value, storage time (seconds). -/
structure CacheEntry (α β : Type) where
  key : α
  value : β
  stored_at : Nat

/-- First entry bound to `key` (recomputation prepends, shadowing). -/
def cache_lookup {α β : Type} [DecidableEq α] (key : α) :
    List (CacheEntry α β) → Option (β × Nat)
  | [] => none
  | e :: es => if e.key = key then some (e.value, e.stored_at) else cache_lookup key es

/-- Modelled from the spec: the cache machinery behind the
`st.cache_data(ttl=60)` decorators lives in the external framework, not in
the source; only the TTL value is declared there. Following §4.1, a call
serves the stored value when `now - stored_at < ttl`, otherwise invokes
the computation and stores the result at `now`. Returns the value, whether
the computation was invoked, and the new state. -/
def get_or_compute {α β : Type} [DecidableEq α] (now ttl : Nat) (key : α)
    (compute : Unit → β) (s : List (CacheEntry α β)) :
    β × Bool × List (CacheEntry α β) :=
  match cache_lookup key s with
  | some (v, t) =>
    if now - t < ttl then (v, false, s)
    else
      let v := compute ()
      (v, true, { key := key, value := v, stored_at := now } :: s)
  | none =>
    let v := compute ()
    (v, true, { key := key, value := v, stored_at := now } :: s)

/- ## Concrete inputs used by several theorems -/

/-- A commits-endpoint element whose author timestamp is `d`. -/
def mkCommit (d : String) : Json :=
  Json.obj [("sha", Json.str "s"), ("commit", Json.obj [("author", Json.obj [("date", Json.str d)])])]

/-- The three-commit list of the spec's aggregation example. -/
def sampleCommits : List Json :=
  [mkCommit "2024-01-01T10:00:00Z", mkCommit "2024-01-01T22:00:00Z", mkCommit "2024-01-02T01:00:00Z"]

/- ## Order bridge: the executable comparators agree with `<` -/

theorem charLtB_iff (a b : Char) : charLtB a b = true ↔ a < b := by
  rw [charLtB, decide_eq_true_iff]
  exact Iff.symm ((UInt32.lt_def).trans (BitVec.lt_def))

theorem strLtB_iff (as bs : List Char) : strLtB as bs = true ↔ List.Lex (· < ·) as bs := by
  induction as generalizing bs with
  | nil =>
    cases bs with
    | nil =>
      simp only [strLtB]
      exact iff_of_false (by simp) (List.Lex.not_nil_right _ _)
    | cons b bs =>
      exact iff_of_true rfl List.Lex.nil
  | cons a as ih =>
    cases bs with
    | nil =>
      simp only [strLtB]
      exact iff_of_false (by simp) (List.Lex.not_nil_right _ _)
    | cons b bs =>
      rw [strLtB]
      by_cases hab : charLtB a b = true
      · rw [if_pos hab]
        exact iff_of_true rfl (List.Lex.rel ((charLtB_iff a b).mp hab))
      · rw [if_neg hab]
        by_cases hba : charLtB b a = true
        · rw [if_pos hba]
          refine iff_of_false (by simp) ?_
          intro h
          have hba' := (charLtB_iff b a).mp hba
          cases h with
          | cons h' => exact lt_irrefl _ hba'
          | rel h' => exact lt_asymm h' hba'
        · rw [if_neg hba]
          have heq : a = b := le_antisymm
            (not_lt.mp (fun h => hba ((charLtB_iff b a).mpr h)))
            (not_lt.mp (fun h => hab ((charLtB_iff a b).mpr h)))
          subst heq
          rw [ih bs]
          constructor
          · exact List.Lex.cons
          · intro h
            cases h with
            | cons h => exact h
            | rel h => exact absurd h (lt_irrefl a)

theorem strLt_iff (a b : String) : strLt a b = true ↔ a < b := by
  rw [strLt, String.lt_iff_toList_lt]
  exact strLtB_iff a.data b.data

/- ## Sorted-dedup lemmas -/

theorem mem_insertSortedDedup {x d : String} {l : List String} :
    x ∈ insertSortedDedup d l ↔ x = d ∨ x ∈ l := by
  induction l with
  | nil => simp [insertSortedDedup]
  | cons a l ih =>
    rw [insertSortedDedup]
    by_cases h1 : d = a
    · subst h1
      rw [if_pos rfl]
      simp only [List.mem_cons]
      tauto
    · rw [if_neg h1]
      by_cases h2 : strLt d a = true
      · rw [if_pos h2]
        simp only [List.mem_cons]
      · rw [if_neg h2]
        simp only [List.mem_cons, ih]
        tauto

theorem sorted_insertSortedDedup {d : String} {l : List String}
    (h : l.Sorted (· < ·)) : (insertSortedDedup d l).Sorted (· < ·) := by
  induction l with
  | nil => simp [insertSortedDedup]
  | cons a l ih =>
    rw [List.sorted_cons] at h
    obtain ⟨ha, hl⟩ := h
    rw [insertSortedDedup]
    by_cases h1 : d = a
    · subst h1
      rw [if_pos rfl]
      exact List.sorted_cons.mpr ⟨ha, hl⟩
    · rw [if_neg h1]
      by_cases h2 : strLt d a = true
      · rw [if_pos h2]
        have hda : d < a := (strLt_iff d a).mp h2
        refine List.sorted_cons.mpr ⟨?_, List.sorted_cons.mpr ⟨ha, hl⟩⟩
        intro b hb
        rcases List.mem_cons.mp hb with rfl | hb
        · exact hda
        · exact lt_trans hda (ha b hb)
      · rw [if_neg h2]
        have had : a < d := by
          rcases lt_trichotomy d a with h | h | h
          · exact absurd ((strLt_iff d a).mpr h) h2
          · exact absurd h h1
          · exact h
        refine List.sorted_cons.mpr ⟨?_, ih hl⟩
        intro b hb
        rcases mem_insertSortedDedup.mp hb with rfl | hb
        · exact had
        · exact ha b hb

theorem sortedDedup_cons (a : String) (l : List String) :
    sortedDedup (a :: l) = insertSortedDedup a (sortedDedup l) := rfl

theorem mem_sortedDedup {x : String} {l : List String} : x ∈ sortedDedup l ↔ x ∈ l := by
  induction l with
  | nil => simp [sortedDedup]
  | cons a l ih =>
    rw [sortedDedup_cons]
    simp only [mem_insertSortedDedup, List.mem_cons, ih]

theorem sorted_sortedDedup (l : List String) : (sortedDedup l).Sorted (· < ·) := by
  induction l with
  | nil => exact List.sorted_nil
  | cons a l ih =>
    rw [sortedDedup_cons]
    exact sorted_insertSortedDedup ih

/- ## Claim theorems -/

/-- Claim C1, counterexample: the claim says the bearer header is attached
exactly when the target HOST is the GitHub API host, but `http_json` tests
`"api.github.com" in url` as a substring: with a token configured, a URL
whose host is `evil.example` but whose query mentions `api.github.com`
still gets the Authorization header. -/
theorem C1_counterexample :
    hasHeader (http_json_headers (some "token123") none "https://evil.example/?q=api.github.com")
      "Authorization" = true ∧
    spec_url_host "https://evil.example/?q=api.github.com" ≠ "api.github.com" := by
  constructor
  · rfl
  · decide

/-- Claim C1, amended: `http_json` attaches the Authorization bearer
header exactly when a truthy token is configured AND the string
`"api.github.com"` occurs as a substring of the URL (not: the host equals
the GitHub API host); the liveness probe and the CSV fetch issue their
requests without any Authorization header and never read the token. -/
theorem C1_bearer_header :
    (∀ token url, hasHeader (http_json_headers token none url) "Authorization" =
      (token_truthy token && strContains url "api.github.com")) ∧
    (∀ url, hasHeader (ping_request_headers url) "Authorization" = false) ∧
    (∀ url, hasHeader (read_csv_request_headers url) "Authorization" = false) := by
  refine ⟨?_, fun _ => rfl, fun _ => rfl⟩
  intro token url
  show hasHeader (if token_truthy token && strContains url "api.github.com" then
      dictSet base_headers "Authorization"
        ("Bearer " ++ (match token with | some t => t | none => ""))
    else base_headers) "Authorization" =
    (token_truthy token && strContains url "api.github.com")
  by_cases h : (token_truthy token && strContains url "api.github.com") = true
  · rw [if_pos h, h]
    rfl
  · rw [if_neg h, Bool.not_eq_true] at *
    rw [h]
    rfl

/-- Claim C2, counterexample: `requests.Response.ok` is not "status in
[200, 400)": a (non-standard but possible) final status of 150 yields
`ok = true` although 150 lies outside [200, 400). -/
theorem C2_counterexample :
    (ping_url "https://example.org" (PingOutcome.response 150 3)).ok = true ∧
    ¬(200 ≤ 150 ∧ 150 < 400) := by
  exact ⟨rfl, by decide⟩

/-- Claim C2, amended: `ping_url` never raises (it is total); when an HTTP
response is received, `ok` is true iff the status code lies outside
[400, 600) (the `requests` notion of `ok`, not "in [200, 400)"); a
transport exception yields `ok = false`, a null `status_code` and a
non-null `error`; `error` and `status_code` are never both populated. -/
theorem C2_ping_result (url : String) (o : PingOutcome) :
    (∀ s ms, o = PingOutcome.response s ms →
      ((ping_url url o).ok = true ↔ ¬(400 ≤ s ∧ s < 600))) ∧
    (∀ m, o = PingOutcome.exception m →
      (ping_url url o).ok = false ∧ (ping_url url o).status_code = none ∧
        (ping_url url o).error = some m) ∧
    ((ping_url url o).error ≠ none → (ping_url url o).status_code = none) ∧
    ((ping_url url o).status_code ≠ none → (ping_url url o).error = none) := by
  cases o with
  | response s ms =>
    refine ⟨?_, ?_, ?_, ?_⟩
    · intro s' ms' h
      cases h
      by_cases hs : 400 ≤ s ∧ s < 600
      · simp [ping_url, requests_ok, hs]
      · simp [ping_url, requests_ok, hs]
    · intro m h
      cases h
    · intro h
      exact absurd rfl h
    · intro _
      rfl
  | exception m' =>
    refine ⟨?_, ?_, ?_, ?_⟩
    · intro s' ms' h
      cases h
    · intro m h
      cases h
      exact ⟨rfl, rfl, rfl⟩
    · intro _
      rfl
    · intro h
      exact absurd rfl h

/-- Claim C2, witness: a 200 response and a transport exception, checked
through the theorem. -/
theorem C2_ping_result_witness :
    ((ping_url "https://app" (PingOutcome.response 200 3)).ok = true ↔ ¬(400 ≤ 200 ∧ 200 < 600)) ∧
    ((ping_url "https://app" (PingOutcome.exception "timeout")).ok = false ∧
      (ping_url "https://app" (PingOutcome.exception "timeout")).status_code = none ∧
      (ping_url "https://app" (PingOutcome.exception "timeout")).error = some "timeout") :=
  ⟨(C2_ping_result "https://app" (PingOutcome.response 200 3)).1 200 3 rfl,
   (C2_ping_result "https://app" (PingOutcome.exception "timeout")).2.1 "timeout" rfl⟩

/-- Claim C10: the success branch of `ping_url` returns a dict without any
`"error"` key; the exception branch always includes a non-null `error`;
hence an `"error"` key in the result implies a transport failure. -/
theorem C10_error_key (url : String) (o : PingOutcome) :
    (∀ s ms, o = PingOutcome.response s ms → (ping_url url o).errorPresent = false) ∧
    (∀ m, o = PingOutcome.exception m →
      (ping_url url o).errorPresent = true ∧ (ping_url url o).error = some m) ∧
    ((ping_url url o).errorPresent = true → ∃ m, o = PingOutcome.exception m) := by
  cases o with
  | response s ms =>
    refine ⟨fun _ _ _ => rfl, ?_, ?_⟩
    · intro m h
      cases h
    · intro h
      exact absurd h (by simp [ping_url])
  | exception m' =>
    refine ⟨?_, ?_, fun _ => ⟨m', rfl⟩⟩
    · intro s ms h
      cases h
    · intro m h
      cases h
      exact ⟨rfl, rfl⟩

/-- Claim C10, witness: both branches at concrete probes, checked through
the theorem. -/
theorem C10_error_key_witness :
    (ping_url "https://app" (PingOutcome.response 503 9)).errorPresent = false ∧
    ((ping_url "https://app" (PingOutcome.exception "refused")).errorPresent = true ∧
      (ping_url "https://app" (PingOutcome.exception "refused")).error = some "refused") :=
  ⟨(C10_error_key "https://app" (PingOutcome.response 503 9)).1 503 9 rfl,
   (C10_error_key "https://app" (PingOutcome.exception "refused")).2.1 "refused" rfl⟩

/-- Claim C8: the editor link of the spec's example is rewritten to the
CSV-export link; any link already containing the export pattern is
returned unchanged; any link matching neither the export pattern nor the
spreadsheet-editor pattern passes through unchanged. -/
theorem C8_normalize :
    normalize_sheets_url "https://docs.google.com/spreadsheets/d/ABC123/edit#gid=42" =
      "https://docs.google.com/spreadsheets/d/ABC123/export?format=csv&gid=42" ∧
    (∀ link, strContains link "/export?format=csv" = true → normalize_sheets_url link = link) ∧
    (∀ link, strContains link "/export?format=csv" = false →
      strContains link "docs.google.com/spreadsheets/d/" = false →
      normalize_sheets_url link = link) := by
  refine ⟨by decide, ?_, ?_⟩
  · intro link h
    simp only [normalize_sheets_url, h, if_true]
  · intro link h1 h2
    simp only [normalize_sheets_url, h1, h2, Bool.false_eq_true, if_false]

/-- Claim C8, witness: an already-export link passes through, checked
through the theorem. -/
theorem C8_normalize_witness :
    normalize_sheets_url "https://docs.google.com/spreadsheets/d/XYZ/export?format=csv&gid=0" =
      "https://docs.google.com/spreadsheets/d/XYZ/export?format=csv&gid=0" :=
  C8_normalize.2.1 "https://docs.google.com/spreadsheets/d/XYZ/export?format=csv&gid=0" rfl

/-- Claim C3 (code bug): with the metadata response `{}` and the commits
response `[{"sha": "abc", "commit": {"author": null}}]` — a null optional
field — `fetch_repo_stats` raises (line 67 evaluates `None.get("date")`
because `.get("author", {})` only defaults an ABSENT key), although a
commits response of length 0 does degrade to all-null commit fields
without raising, as the claim describes. -/
theorem C3_author_null_raises :
    (fetch_repo_stats (Json.obj [])
      (Json.arr [Json.obj [("sha", Json.str "abc"), ("commit", Json.obj [("author", Json.null)])]])
      0).isOk = false ∧
    fetch_repo_stats (Json.obj []) (Json.arr []) 0 =
      Except.ok { repo_full_name := Json.null, default_branch := Json.null, stars := Json.null,
                  forks := Json.null, watchers := Json.null, open_issues := Json.null,
                  license := Json.null, repo_api_latency_s := 0, latest_commit_sha := Json.null,
                  latest_commit_message := Json.null, latest_commit_author := Json.null,
                  latest_commit_datetime := Json.null, repo_html_url := Json.null,
                  repo_size_kb := Json.null } := by
  exact ⟨rfl, rfl⟩

/-- Claim C5: each of the five counters equals `_safe_count` of its own
endpoint outcome (so the counters are independent and the fetcher as a
whole is total); `_safe_count` yields the length for a sequence, the
`total_count` field for a mapping, and 0 on any swallowed error. -/
theorem C5_extended_counters (oc ob orl ot op : Except String Json) :
    (fetch_repo_extended ⟨oc, ob, orl, ot, op⟩).contributors = safe_count oc ∧
    (fetch_repo_extended ⟨oc, ob, orl, ot, op⟩).branches = safe_count ob ∧
    (fetch_repo_extended ⟨oc, ob, orl, ot, op⟩).releases = safe_count orl ∧
    (fetch_repo_extended ⟨oc, ob, orl, ot, op⟩).tags = safe_count ot ∧
    (fetch_repo_extended ⟨oc, ob, orl, ot, op⟩).pulls_open = safe_count op ∧
    (∀ e, safe_count (Except.error e) = 0) ∧
    (∀ xs, safe_count (Except.ok (Json.arr xs)) = Int.ofNat xs.length) ∧
    (∀ fs n, jlookup fs "total_count" = some (Json.num n) →
      safe_count (Except.ok (Json.obj fs)) = n) := by
  refine ⟨rfl, rfl, rfl, rfl, rfl, fun _ => rfl, fun _ => rfl, ?_⟩
  intro fs n h
  simp [safe_count, dictGetD, h, pyInt]

/-- Claim C5, witness: one failing endpoint yields 0 while sequence- and
mapping-shaped successes keep their values, checked through the theorem. -/
theorem C5_extended_counters_witness :
    (fetch_repo_extended ⟨Except.error "HTTP 403", Except.ok (Json.arr [Json.null, Json.null]),
        Except.ok (Json.obj [("total_count", Json.num 7)]), Except.ok (Json.arr []),
        Except.error "rate limited"⟩).contributors = 0 ∧
    (fetch_repo_extended ⟨Except.error "HTTP 403", Except.ok (Json.arr [Json.null, Json.null]),
        Except.ok (Json.obj [("total_count", Json.num 7)]), Except.ok (Json.arr []),
        Except.error "rate limited"⟩).branches = 2 ∧
    (fetch_repo_extended ⟨Except.error "HTTP 403", Except.ok (Json.arr [Json.null, Json.null]),
        Except.ok (Json.obj [("total_count", Json.num 7)]), Except.ok (Json.arr []),
        Except.error "rate limited"⟩).releases = 7 := by
  have h := C5_extended_counters (Except.error "HTTP 403")
    (Except.ok (Json.arr [Json.null, Json.null]))
    (Except.ok (Json.obj [("total_count", Json.num 7)])) (Except.ok (Json.arr []))
    (Except.error "rate limited")
  refine ⟨?_, ?_, ?_⟩
  · rw [h.1]
    exact h.2.2.2.2.2.1 "HTTP 403"
  · rw [h.2.1]
    exact h.2.2.2.2.2.2.1 [Json.null, Json.null]
  · rw [h.2.2.1]
    exact h.2.2.2.2.2.2.2 [("total_count", Json.num 7)] 7 rfl

/-- Claim C4, counterexample: for the directly-uploaded-bytes origin the
parse sits at the top level of the script outside any `try`: a parsing
failure propagates — a fatal error for the page — instead of an empty
row-set plus a warning. -/
theorem C4_counterexample :
    page_uploaded_df (some (Except.error "ParserError")) = Except.error "ParserError" := rfl

/-- Claim C4, amended: for the direct-CSV-URL origin and the local-file
origin, a parsing failure yields an empty row-set plus a surfaced warning
and is never fatal (both loaders are total functions); for directly
uploaded bytes the parse is unguarded, so a failure propagates uncaught
while a success yields the rows. -/
theorem C4_loaders :
    (∀ e, read_csv_url (Except.error e) = ([], ["Could not read CSV from URL: " ++ e])) ∧
    (∀ fs : String → Option (Except String Rows),
      (∀ n, fs n = none ∨ ∃ e, fs n = some (Except.error e)) →
      (load_offline_csv fs).1 = [] ∧
      (∀ n e, n ∈ offline_candidates → fs n = some (Except.error e) →
        ("Found " ++ n ++ " but could not read it: " ++ e) ∈ (load_offline_csv fs).2)) ∧
    (∀ df, page_uploaded_df (some (Except.ok df)) = Except.ok (some df)) ∧
    (∀ e, page_uploaded_df (some (Except.error e)) = Except.error e) := by
  refine ⟨fun _ => rfl, ?_, fun _ => rfl, fun _ => rfl⟩
  intro fs h
  constructor
  · rcases h "latest_metrics.csv" with h1 | ⟨e1, h1⟩ <;>
      rcases h "data/latest_metrics.csv" with h2 | ⟨e2, h2⟩ <;>
      simp [load_offline_csv, load_offline_csv_go, offline_candidates, h1, h2]
  · intro n e hn he
    simp only [offline_candidates, List.mem_cons, List.not_mem_nil, or_false] at hn
    rcases hn with rfl | rfl
    · rcases h "data/latest_metrics.csv" with h2 | ⟨e2, h2⟩ <;>
        simp [load_offline_csv, load_offline_csv_go, offline_candidates, he, h2]
    · rcases h "latest_metrics.csv" with h1 | ⟨e1, h1⟩ <;>
        simp [load_offline_csv, load_offline_csv_go, offline_candidates, he, h1]

/-- Claim C4, witness: no candidate file exists, the loader returns the
empty row-set, checked through the theorem. -/
theorem C4_loaders_witness :
    (load_offline_csv (fun _ => (none : Option (Except String Rows)))).1 = [] :=
  (C4_loaders.2.1 (fun _ => none) (fun _ => Or.inl rfl)).1

/-- Claim C9 (spec-modelled TTL cache): starting from a state without the
key, the first call invokes the computation and stores the value; a second
call within 60 seconds of storage serves the cached value without
invoking; a call at or past the 60-second TTL invokes the computation a
second time. -/
theorem C9_cache_ttl {α β : Type} [DecidableEq α] (key : α) (f : Unit → β)
    (t0 t1 t2 : Nat) (s0 : List (CacheEntry α β))
    (h0 : cache_lookup key s0 = none) (h1 : t0 ≤ t1)
    (h2 : t1 < t0 + cache_ttl_seconds) (h3 : t0 + cache_ttl_seconds ≤ t2) :
    (get_or_compute t0 cache_ttl_seconds key f s0).2.1 = true ∧
    (get_or_compute t1 cache_ttl_seconds key f
      (get_or_compute t0 cache_ttl_seconds key f s0).2.2).2.1 = false ∧
    (get_or_compute t1 cache_ttl_seconds key f
      (get_or_compute t0 cache_ttl_seconds key f s0).2.2).1 = f () ∧
    (get_or_compute t2 cache_ttl_seconds key f
      (get_or_compute t1 cache_ttl_seconds key f
        (get_or_compute t0 cache_ttl_seconds key f s0).2.2).2.2).2.1 = true := by
  have hlt : t1 - t0 < cache_ttl_seconds := by
    simp only [cache_ttl_seconds] at h2 ⊢
    omega
  have hge : ¬ t2 - t0 < cache_ttl_seconds := by
    simp only [cache_ttl_seconds] at h3 ⊢
    omega
  have e0 : get_or_compute t0 cache_ttl_seconds key f s0 =
      (f (), true, { key := key, value := f (), stored_at := t0 } :: s0) := by
    simp [get_or_compute, h0]
  have elook : cache_lookup key ({ key := key, value := f (), stored_at := t0 } :: s0) =
      some (f (), t0) := by
    simp [cache_lookup]
  have e1 : get_or_compute t1 cache_ttl_seconds key f
      ({ key := key, value := f (), stored_at := t0 } :: s0) =
      (f (), false, { key := key, value := f (), stored_at := t0 } :: s0) := by
    simp [get_or_compute, elook, hlt]
  have e2 : (get_or_compute t2 cache_ttl_seconds key f
      ({ key := key, value := f (), stored_at := t0 } :: s0)).2.1 = true := by
    simp [get_or_compute, elook, hge]
  refine ⟨by rw [e0], ?_, ?_, ?_⟩
  · rw [e0]
    simp [e1]
  · rw [e0]
    simp [e1]
  · rw [e0]
    simp [e1, e2]

/-- Claim C9, witness: key `"k"` computed at `t = 0`, served from cache at
`t = 30`, recomputed at `t = 60`, checked through the theorem. -/
theorem C9_cache_ttl_witness :
    (get_or_compute 0 cache_ttl_seconds "k" (fun _ => (7 : Nat)) []).2.1 = true ∧
    (get_or_compute 30 cache_ttl_seconds "k" (fun _ => (7 : Nat))
      (get_or_compute 0 cache_ttl_seconds "k" (fun _ => (7 : Nat)) []).2.2).2.1 = false ∧
    (get_or_compute 30 cache_ttl_seconds "k" (fun _ => (7 : Nat))
      (get_or_compute 0 cache_ttl_seconds "k" (fun _ => (7 : Nat)) []).2.2).1 = 7 ∧
    (get_or_compute 60 cache_ttl_seconds "k" (fun _ => (7 : Nat))
      (get_or_compute 30 cache_ttl_seconds "k" (fun _ => (7 : Nat))
        (get_or_compute 0 cache_ttl_seconds "k" (fun _ => (7 : Nat)) []).2.2).2.2).2.1 = true :=
  C9_cache_ttl "k" (fun _ => (7 : Nat)) 0 30 60 [] rfl (by decide) (by decide) (by decide)

/-- A commits-endpoint element with no author timestamp at all. -/
def noDateCommit : Json := Json.obj [("sha", Json.str "s")]

/-- Claim C6: with display zone UTC, the three-commit example aggregates
to `[(2024-01-01, 2), (2024-01-02, 1)]`; a commit whose extracted author
timestamp is falsy (absent, null or empty) is dropped from consideration;
and whenever zero timestamped commits are extracted the aggregator returns
the empty series, not an error. -/
theorem C6_daily_aggregation :
    fetch_commit_history utc_local_date sampleCommits =
      Except.ok [("2024-01-01", 2), ("2024-01-02", 1)] ∧
    (∀ loc c cs dt, commit_date c = Except.ok dt → truthy dt = false →
      fetch_commit_history loc (c :: cs) = fetch_commit_history loc cs) ∧
    (∀ loc cs, extract_dates loc cs = Except.ok [] →
      fetch_commit_history loc cs = Except.ok []) := by
  refine ⟨rfl, ?_, ?_⟩
  · intro loc c cs dt hc hdt
    simp [fetch_commit_history, extract_dates, hc, hdt]
  · intro loc cs h
    simp [fetch_commit_history, h, groupDaily, sortedDedup]

/-- Claim C6, witness: a commit without a timestamp is dropped, checked
through the theorem. -/
theorem C6_daily_aggregation_witness :
    fetch_commit_history utc_local_date (noDateCommit :: sampleCommits) =
      fetch_commit_history utc_local_date sampleCommits :=
  C6_daily_aggregation.2.1 utc_local_date noDateCommit sampleCommits Json.null rfl rfl

/-- Claim C7: whenever the aggregator produces a series, that series has
exactly one row per distinct local calendar date among the timestamped
commits (membership in both directions plus strict sortedness), is sorted
strictly ascending by date, and every count equals that date's number of
commits and is at least 1 — dates with zero commits are absent. -/
theorem C7_series_invariants (loc : String → String) (commits : List Json)
    (dates : List String) (series : List (String × Nat))
    (hd : extract_dates loc commits = Except.ok dates)
    (hs : fetch_commit_history loc commits = Except.ok series) :
    (series.map Prod.fst).Sorted (· < ·) ∧
    (∀ d, d ∈ series.map Prod.fst ↔ d ∈ dates) ∧
    (∀ p, p ∈ series → p.2 = dates.count p.1 ∧ 1 ≤ p.2) := by
  have hser : series = groupDaily dates := by
    simp only [fetch_commit_history, hd] at hs
    injection hs with h
    exact h.symm
  have hmap : (groupDaily dates).map Prod.fst = sortedDedup dates := by
    rw [groupDaily, List.map_map]
    show List.map (fun d => d) (sortedDedup dates) = sortedDedup dates
    exact List.map_id' (sortedDedup dates)
  subst hser
  refine ⟨?_, ?_, ?_⟩
  · rw [hmap]
    exact sorted_sortedDedup dates
  · intro d
    rw [hmap, mem_sortedDedup]
  · intro p hp
    rw [groupDaily] at hp
    rcases List.mem_map.mp hp with ⟨d, hdm, rfl⟩
    refine ⟨rfl, ?_⟩
    show 1 ≤ dates.count d
    have hmem : d ∈ dates := mem_sortedDedup.mp hdm
    have hne : dates.count d ≠ 0 := by
      rw [ne_eq, List.count_eq_zero]
      intro hcon
      exact hcon hmem
    omega

/-- Claim C7, witness: the invariants at the three-commit example, checked
through the theorem. -/
theorem C7_series_invariants_witness :
    ((([("2024-01-01", 2), ("2024-01-02", 1)] : List (String × Nat)).map Prod.fst).Sorted (· < ·)) ∧
    (∀ d, d ∈ ([("2024-01-01", 2), ("2024-01-02", 1)] : List (String × Nat)).map Prod.fst ↔
      d ∈ ["2024-01-01", "2024-01-01", "2024-01-02"]) ∧
    (∀ p, p ∈ ([("2024-01-01", 2), ("2024-01-02", 1)] : List (String × Nat)) →
      p.2 = ["2024-01-01", "2024-01-01", "2024-01-02"].count p.1 ∧ 1 ≤ p.2) :=
  C7_series_invariants utc_local_date sampleCommits
    ["2024-01-01", "2024-01-01", "2024-01-02"] [("2024-01-01", 2), ("2024-01-02", 1)] rfl rfl

end SignalBoard
